import Mathlib

/-!
Verification development for the GigaChat Content Assistant repository.

The Python sources are shallowly embedded: strings are modelled as `List Char`
(or Lean `String` where convenient), Python exceptions as an explicit error
type threaded through `Except`, Streamlit session state / secrets / process
environment as explicit records, and the remote GigaChat transport as a
function parameter (a deterministic transport).
-/

/-! ## Embedding of src/services/llm_client.py -/

namespace LlmClient

/-- The Python exceptions that the embedded code can raise:
`ValueError`, `RuntimeError` and `FileNotFoundError`. -/
inductive PyErr where
  | valueError (msg : String)
  | runtimeError (msg : String)
  | fileNotFound (msg : String)
deriving DecidableEq, Repr

/-- The message carried by an exception (`str(e)` in Python). -/
def pyErrMsg : PyErr → String
  | .valueError m => m
  | .runtimeError m => m
  | .fileNotFound m => m

/-- `st.secrets.get("gigachat", ...)`: the structured secret store section.
`none` models an absent key. -/
structure Secrets where
  credentials : Option String
  scope : Option String
  model : Option String
deriving DecidableEq, Repr

/-- The process environment variables read by the client
(`GIGACHAT_CREDENTIALS`, `GIGACHAT_SCOPE`, `GIGACHAT_MODEL`).
`none` models an unset variable. -/
structure EnvVars where
  credentials : Option String
  scope : Option String
  model : Option String
deriving DecidableEq, Repr

/-- `st.session_state`: the session keys read by the client
(`llm_model`, `llm_temperature`).  `none` models an absent key. -/
structure SessionState where
  llmModel : Option String
  llmTemperature : Option ℚ
deriving DecidableEq, Repr

/-- Python `a or b` on an optional string with a string fallback:
`None` and the empty string are falsy. -/
def pyOrStr (a : Option String) (b : String) : String :=
  match a with
  | some s => if s = "" then b else s
  | none => b

/-- Python `a or b` on two optional strings (`secrets.get(k) or os.getenv(k)`). -/
def pyOrStrOpt (a b : Option String) : Option String :=
  match a with
  | some s => if s = "" then b else some s
  | none => b

/-- `DEFAULT_MODEL_PARAMS["temperature"]`. -/
def DEFAULT_TEMPERATURE : ℚ := 7/10

/-- `DEFAULT_MODEL_PARAMS["max_tokens"]`. -/
def DEFAULT_MAX_TOKENS : ℕ := 4000

/-- The model-name resolution performed inside `_get_gigachat_client`:
`st.session_state.get("llm_model", secrets.get("model") or
os.getenv("GIGACHAT_MODEL", "GigaChat-2-Max"))`. -/
def clientModelName (st : SessionState) (secrets : Secrets) (env : EnvVars) : String :=
  match st.llmModel with
  | some m => m
  | none => pyOrStr secrets.model (env.model.getD "GigaChat-2-Max")

/-- The configuration with which the `GigaChat(...)` client object is built
(fields relevant to the claims; SSL fields omitted). -/
structure ClientConfig where
  credentials : String
  scope : String
  model : String
deriving DecidableEq, Repr

/-- Embedding of `_get_gigachat_client`: resolves credentials
(`secrets.get("credentials") or os.getenv("GIGACHAT_CREDENTIALS")`, raising
`ValueError` when falsy), scope and model, and returns the client
configuration. -/
def get_gigachat_client (st : SessionState) (secrets : Secrets) (env : EnvVars) :
    Except PyErr ClientConfig :=
  match pyOrStrOpt secrets.credentials env.credentials with
  | none => .error (.valueError "Не настроены ключи доступа GigaChat.")
  | some c =>
    if c = "" then .error (.valueError "Не настроены ключи доступа GigaChat.")
    else
      .ok { credentials := c
            scope := pyOrStr secrets.scope (env.scope.getD "GIGACHAT_API_PERS")
            model := clientModelName st secrets env }

/-- The temperature resolution in `generate_stream`:
`temperature or st.session_state.get("llm_temperature",
DEFAULT_MODEL_PARAMS["temperature"])` — a Python `or`, under which an
explicit `0.0` is falsy. -/
def effTemperature (temperature : Option ℚ) (st : SessionState) : ℚ :=
  let sessionTemp := st.llmTemperature.getD DEFAULT_TEMPERATURE
  match temperature with
  | none => sessionTemp
  | some t => if t = 0 then sessionTemp else t

/-- The model-name resolution in `generate_stream` itself:
`st.session_state.get("llm_model", "GigaChat-2-Max")`. -/
def chatModelName (st : SessionState) : String :=
  st.llmModel.getD "GigaChat-2-Max"

/-- The layered model-name priority as the spec words it (for comparison with
the code's resolution): session override, then stored secret, then
environment variable, then the hardcoded default `GigaChat-2-Max`. -/
def specLayeredModel (st : SessionState) (secrets : Secrets) (env : EnvVars) : String :=
  match st.llmModel with
  | some m => m
  | none =>
    match secrets.model with
    | some m => m
    | none => env.model.getD "GigaChat-2-Max"

/-- One streamed delta: `chunk.choices[0].delta.content`
(`none` models an absent/None content). -/
structure Choice where
  delta : Option String
deriving DecidableEq, Repr

/-- One streaming chunk received from the API. -/
structure Chunk where
  choices : List Choice
deriving DecidableEq, Repr

/-- The `Chat(...)` request object sent by `generate_stream`: one user-role
message holding the prompt, plus temperature, max_tokens and model. -/
structure ChatRequest where
  prompt : String
  temperature : ℚ
  maxTokens : ℕ
  model : String
deriving DecidableEq, Repr

/-- A deterministic transport: what `giga.stream(chat)` returns for a given
request — either the chunk sequence or a raised transport exception
(carried as its message). -/
def Transport := ChatRequest → Except String (List Chunk)

/-- The `Chat(...)` construction in `generate_stream` (lines 171-176). -/
def buildChatRequest (st : SessionState) (prompt : String)
    (temperature : Option ℚ) : ChatRequest :=
  { prompt := prompt
    temperature := effTemperature temperature st
    maxTokens := DEFAULT_MAX_TOKENS
    model := chatModelName st }

/-- The chunk-reading loop of `generate_stream`: yield
`chunk.choices[0].delta.content` whenever `chunk.choices` is non-empty and
the content is truthy (present and non-empty). -/
def chunkFragments (chunks : List Chunk) : List String :=
  chunks.filterMap fun ch =>
    match ch.choices with
    | [] => none
    | c :: _ =>
      match c.delta with
      | some s => if s = "" then none else some s
      | none => none

/-- Embedding of `generate_stream`, additionally reporting whether the
transport was invoked (second component).  The whole body — client
construction included — sits in a `try` whose `except Exception` re-raises
`RuntimeError("Ошибка GigaChat API: " + str(e))`. -/
def generateStreamAux (tr : Transport) (st : SessionState) (secrets : Secrets)
    (env : EnvVars) (prompt : String) (temperature : Option ℚ) :
    Except PyErr (List String) × Bool :=
  match get_gigachat_client st secrets env with
  | .error e => (.error (.runtimeError ("Ошибка GigaChat API: " ++ pyErrMsg e)), false)
  | .ok _ =>
    match tr (buildChatRequest st prompt temperature) with
    | .error msg => (.error (.runtimeError ("Ошибка GigaChat API: " ++ msg)), true)
    | .ok chunks => (.ok (chunkFragments chunks), true)

/-- Embedding of `generate_stream`: the fragment sequence it yields, or the
exception it raises while being drained. -/
def generate_stream (tr : Transport) (st : SessionState) (secrets : Secrets)
    (env : EnvVars) (prompt : String) (temperature : Option ℚ) :
    Except PyErr (List String) :=
  (generateStreamAux tr st secrets env prompt temperature).1

/-- Embedding of `generate_sync`:
`"".join(list(generate_stream(prompt, temperature)))`. -/
def generate_sync (tr : Transport) (st : SessionState) (secrets : Secrets)
    (env : EnvVars) (prompt : String) (temperature : Option ℚ) :
    Except PyErr String :=
  (generate_stream tr st secrets env prompt temperature).map String.join

end LlmClient

/-! ## Embedding of src/services/content_gen.py -/

namespace ContentGen

open LlmClient

/-- Embedding of `_extract_json_from_text`'s regex search `\[.*\]` with
`re.DOTALL`: after a first `[`, the greedy `.*` extends to the last `]` of the
remainder.  `uptoLastClose l` returns the prefix of `l` that ends at the last
`]` in `l`, if `l` contains one. -/
def uptoLastClose (l : List Char) : Option (List Char) :=
  let r := l.reverse.dropWhile (fun c => c != ']')
  if r.isEmpty then none else some r.reverse

/-- The regex-engine scan of `re.search(r'\[.*\]', text, re.DOTALL)`: advance
to the first `[`; from there the greedy match runs to the last `]` after it.
If a `[` has no `]` after it, the engine advances one position. -/
def extractCore : List Char → Option (List Char)
  | [] => none
  | c :: rest =>
    if c = '[' then
      match uptoLastClose rest with
      | some p => some ('[' :: p)
      | none => extractCore rest
    else extractCore rest

/-- Embedding of `_extract_json_from_text` (src/services/content_gen.py):
return the matched span if the regex matches, the input unchanged otherwise. -/
def extract_json_from_text (l : List Char) : List Char :=
  (extractCore l).getD l

/-- `true` iff the text contains a `[` followed (strictly later) by a `]`,
i.e. iff the regex `\[.*\]` (DOTALL) matches. -/
def hasBracketPair : List Char → Bool
  | [] => false
  | c :: rest => (c = '[' && decide (']' ∈ rest)) || hasBracketPair rest

/-- The prompt-template file system: `load_prompt` template name →
file contents (`none` models a missing file). -/
def FS := String → Option String

/-- Embedding of `load_prompt`: read `assets/prompts/<name>.txt`, raising
`FileNotFoundError` when the file is absent. -/
def load_prompt (fs : FS) (name : String) : Except PyErr String :=
  match fs name with
  | none => .error (.fileNotFound ("Файл шаблона промпта не найден: " ++ name))
  | some s => .ok s

/-- Left brace / right brace characters (the `str.format` placeholder
delimiters), written by code point. -/
def lbrace : Char := Char.ofNat 123

def rbrace : Char := Char.ofNat 125

/-- A prefix test on character lists (used to locate placeholders). -/
def startsWithSeq : List Char → List Char → Bool
  | [], _ => true
  | _ :: _, [] => false
  | p :: ps, c :: cs => p = c && startsWithSeq ps cs

/-- Replace every occurrence of `pat` (non-overlapping, left to right)
by `rep` in `l`. -/
def replaceSeq (pat rep : List Char) : List Char → List Char
  | [] => []
  | c :: rest =>
    if _h : pat ≠ [] ∧ startsWithSeq pat (c :: rest) then
      rep ++ replaceSeq pat rep ((c :: rest).drop pat.length)
    else
      c :: replaceSeq pat rep rest
termination_by l => l.length
decreasing_by
  · simp only [List.length_drop, List.length_cons]
    have hp : 0 < pat.length := List.length_pos.mpr _h.1
    omega
  · simp

/-- Embedding of `template.format(key=value, ...)`: substitute each
placeholder (the key between braces) by its value. -/
def pyFormat (tpl : String) (args : List (String × String)) : String :=
  (args.foldl
    (fun acc kv => replaceSeq (lbrace :: kv.1.toList ++ [rbrace]) kv.2.toList acc)
    tpl.toList).asString

/-- The template name used by `generate_broadcast_stream`. -/
def BROADCAST_TEMPLATE : String := "broadcasts"

/-- The template name used by `generate_lead_magnet_stream`. -/
def LEAD_MAGNET_TEMPLATE : String := "lead_magnets"

/-- The template name used by `generate_seo_article_stream`. -/
def SEO_ARTICLE_TEMPLATE : String := "seo_articles"

/-- The temperature passed by `generate_broadcast_stream`. -/
def BROADCAST_TEMPERATURE : ℚ := 7/10

/-- The temperature passed by `generate_lead_magnet_stream`. -/
def LEAD_MAGNET_TEMPERATURE : ℚ := 7/10

/-- The temperature passed by `generate_seo_article_stream`. -/
def SEO_ARTICLE_TEMPERATURE : ℚ := 4/5

/-- The temperature passed by `generate_content_plan`. -/
def CONTENT_PLAN_TEMPERATURE : ℚ := 3/10

/-- Embedding of `generate_broadcast_stream`: load the `broadcasts` template,
substitute the five parameters, and stream with temperature 0.7. -/
def generate_broadcast_stream (fs : FS) (tr : Transport) (st : SessionState)
    (secrets : Secrets) (env : EnvVars)
    (channel businessNiche topic tone brandKeywords : String) :
    Except PyErr (List String) :=
  match load_prompt fs BROADCAST_TEMPLATE with
  | .error e => .error e
  | .ok tpl =>
    generate_stream tr st secrets env
      (pyFormat tpl [("channel", channel), ("business_niche", businessNiche),
        ("topic", topic), ("tone", tone), ("brand_keywords", brandKeywords)])
      (some BROADCAST_TEMPERATURE)

/-- Embedding of `generate_lead_magnet_stream`: load the `lead_magnets`
template, substitute the five parameters, and stream with temperature 0.7. -/
def generate_lead_magnet_stream (fs : FS) (tr : Transport) (st : SessionState)
    (secrets : Secrets) (env : EnvVars)
    (lmType topic audience length businessNiche : String) :
    Except PyErr (List String) :=
  match load_prompt fs LEAD_MAGNET_TEMPLATE with
  | .error e => .error e
  | .ok tpl =>
    generate_stream tr st secrets env
      (pyFormat tpl [("lm_type", lmType), ("topic", topic),
        ("audience", audience), ("length", length),
        ("business_niche", businessNiche)])
      (some LEAD_MAGNET_TEMPERATURE)

/-- Embedding of `generate_seo_article_stream`: load the `seo_articles`
template, substitute the four parameters, and stream with temperature 0.8. -/
def generate_seo_article_stream (fs : FS) (tr : Transport) (st : SessionState)
    (secrets : Secrets) (env : EnvVars)
    (businessNiche topic targetKeywords length : String) :
    Except PyErr (List String) :=
  match load_prompt fs SEO_ARTICLE_TEMPLATE with
  | .error e => .error e
  | .ok tpl =>
    generate_stream tr st secrets env
      (pyFormat tpl [("business_niche", businessNiche), ("topic", topic),
        ("target_keywords", targetKeywords), ("length", length)])
      (some SEO_ARTICLE_TEMPERATURE)

/-- JSON values, as produced by `json.loads`. -/
inductive Json where
  | str (s : String)
  | num (q : ℚ)
  | bool (b : Bool)
  | null
  | arr (items : List Json)
  | obj (fields : List (String × Json))

/-- Modelled from the spec: `ContentPlanItem` (src/models/schemas.py is not in
the repository snapshot; its fields are taken from the spec's data model —
"one row of a content calendar — date/period label, channel, format, topic,
brief description. All fields are plain strings"). -/
structure ContentPlanItem where
  date : String
  channel : String
  format : String
  topic : String
  description : String
deriving DecidableEq, Repr

/-- Dictionary field lookup on a parsed JSON object. -/
def getField (fields : List (String × Json)) (k : String) : Option Json :=
  (fields.find? (fun kv => kv.1 = k)).map (fun kv => kv.2)

/-- A JSON value read as a string, as pydantic string-field validation
requires. -/
def jsonAsString : Json → Option String
  | .str s => some s
  | _ => none

/-- Modelled from the spec: pydantic validation of one `ContentPlanItem` —
the value must be an object carrying the five required string fields. -/
def validateItem (j : Json) : Option ContentPlanItem :=
  match j with
  | .obj fs => do
    let date ← (getField fs "date").bind jsonAsString
    let channel ← (getField fs "channel").bind jsonAsString
    let format ← (getField fs "format").bind jsonAsString
    let topic ← (getField fs "topic").bind jsonAsString
    let description ← (getField fs "description").bind jsonAsString
    pure ⟨date, channel, format, topic, description⟩
  | _ => none

/-- Modelled from the spec: pydantic validation of the root `ContentPlan`
model — an object whose `items` field is a list of valid items, order
preserved. -/
def validatePlanItems (j : Json) : Option (List ContentPlanItem) :=
  match j with
  | .obj fs =>
    match getField fs "items" with
    | some (.arr xs) => xs.mapM validateItem
    | _ => none
  | _ => none

/-- The post-parse logic of `generate_content_plan` (lines 79-83): a bare
top-level array is wrapped into the expected root shape, then the root model
is validated and its `items` returned. -/
def planFromParsed (j : Json) : Option (List ContentPlanItem) :=
  let wrapped := match j with
    | .arr xs => Json.obj [("items", Json.arr xs)]
    | other => other
  validatePlanItems wrapped

/-- Embedding of the response-processing part of `generate_content_plan`:
extract the bracket span, parse it (`json.loads` is the external `json`
library, passed as a parameter), normalize and validate; parse or validation
failure raises `ValueError` carrying the raw response. -/
def generate_content_plan_from_response (parse : String → Option Json)
    (raw : String) : Except PyErr (List ContentPlanItem) :=
  match parse ((extract_json_from_text raw.toList).asString) with
  | none => .error (.valueError ("Ошибка парсинга ответа от LLM" ++ "\nСырой ответ: " ++ raw))
  | some parsed =>
    match planFromParsed parsed with
    | some items => .ok items
    | none => .error (.valueError ("Ошибка парсинга ответа от LLM" ++ "\nСырой ответ: " ++ raw))

end ContentGen

/-! ## Embedding of src/services/pdf_maker.py -/

namespace PdfMaker

/-- `FONT_FAMILY`. -/
def FONT_FAMILY : String := "Roboto"

/-- The registered name of the regular weight, `Roboto-Regular`. -/
def REGULAR_FONT_NAME : String := "Roboto-Regular"

/-- The registered name of the bold weight, `Roboto-Bold`. -/
def BOLD_FONT_NAME : String := "Roboto-Bold"

/-- The `addMapping` table built by `_setup_fonts`: which registered font
each of the four style variants (regular / bold / italic / bold-italic)
resolves to. -/
structure FontMapping where
  regular : String
  bold : String
  italic : String
  boldItalic : String
deriving DecidableEq, Repr

/-- Embedding of `_setup_fonts`, as a function of the `_FONTS_REGISTERED`
flag and of which font files exist on disk.  When the flag is set the
function returns at once (`none`: no new mapping is installed); otherwise a
missing regular file raises `FileNotFoundError`; with the regular file
present, the bold file's presence decides the mapping table. -/
def setup_fonts (registered regularExists boldExists : Bool) :
    Except LlmClient.PyErr (Option FontMapping) :=
  if registered then .ok none
  else if !regularExists then
    .error (.fileNotFound "Не найден базовый шрифт Roboto-Regular.ttf. Добавьте его в папку assets/fonts/.")
  else if boldExists then
    .ok (some { regular := REGULAR_FONT_NAME, bold := BOLD_FONT_NAME
                italic := REGULAR_FONT_NAME, boldItalic := BOLD_FONT_NAME })
  else
    .ok (some { regular := REGULAR_FONT_NAME, bold := REGULAR_FONT_NAME
                italic := REGULAR_FONT_NAME, boldItalic := REGULAR_FONT_NAME })

/-- The `font_bold` selection in `generate_pdf` (line 135): the bold face
name when `Roboto-Bold.ttf` exists, else the regular face. -/
def boldStyleFontName (boldExists : Bool) : String :=
  if boldExists then BOLD_FONT_NAME else REGULAR_FONT_NAME

/-- `true` iff the list starts with `*`. -/
def isStarHead : List Char → Bool
  | [] => false
  | c :: _ => c = '*'

/-- The scan of the lazy group in `re.sub(r'\*\*(.*?)\*\*', ...)` (no DOTALL:
`.` excludes the newline): find the earliest closing `**`, returning content
and remainder; fail at a newline or at the end. -/
def findCloseB : List Char → Option (List Char × List Char)
  | [] => none
  | c :: r =>
    if c = '\n' then none
    else if c = '*' && isStarHead r then some ([], r.tail)
    else
      match findCloseB r with
      | some (cs, r2) => some (c :: cs, r2)
      | none => none

theorem findCloseB_size :
    ∀ {l cs r : List Char}, findCloseB l = some (cs, r) →
      cs.length + r.length + 2 = l.length := by
  intro l
  induction l with
  | nil => intro cs r h; simp [findCloseB] at h
  | cons c rest ih =>
    intro cs r h
    simp only [findCloseB] at h
    split at h
    · exact absurd h (by simp)
    · split at h
      · rename_i hcond
        simp only [Option.some.injEq, Prod.mk.injEq] at h
        obtain ⟨h1, h2⟩ := h
        subst h1; subst h2
        cases rest with
        | nil => simp [isStarHead] at hcond
        | cons d r2 => simp
      · split at h
        · rename_i cs' r' hfc
          simp only [Option.some.injEq, Prod.mk.injEq] at h
          obtain ⟨h1, h2⟩ := h
          have := ih hfc
          subst h1; subst h2
          simp at this ⊢
          omega
        · exact absurd h (by simp)

/-- `r'<b>\1</b>'`. -/
def tagB (content : List Char) : List Char :=
  '<' :: 'b' :: '>' :: content ++ ['<', '/', 'b', '>']

/-- `r'<i>\1</i>'`. -/
def tagI (content : List Char) : List Char :=
  '<' :: 'i' :: '>' :: content ++ ['<', '/', 'i', '>']

/-- Embedding of `re.sub(r'\*\*(.*?)\*\*', r'<b>\1</b>', text)`: scan left to
right; at an opening `**` take the lazily-matched content up to the earliest
closing `**`; on failure advance one character. -/
def subBold : List Char → List Char
  | [] => []
  | c :: rest =>
    if c = '*' && isStarHead rest then
      match hfc : findCloseB rest.tail with
      | some (content, rest3) => tagB content ++ subBold rest3
      | none => c :: subBold rest
    else c :: subBold rest
termination_by l => l.length
decreasing_by
  · have := findCloseB_size hfc
    simp at this ⊢
    omega
  · simp
  · simp

/-- The scan of the lazy group in `re.sub(r'\*(.*?)\*', ...)` (no DOTALL):
find the earliest closing `*`. -/
def findCloseI : List Char → Option (List Char × List Char)
  | [] => none
  | c :: r =>
    if c = '\n' then none
    else if c = '*' then some ([], r)
    else
      match findCloseI r with
      | some (cs, r2) => some (c :: cs, r2)
      | none => none

theorem findCloseI_size :
    ∀ {l cs r : List Char}, findCloseI l = some (cs, r) →
      cs.length + r.length + 1 = l.length := by
  intro l
  induction l with
  | nil => intro cs r h; simp [findCloseI] at h
  | cons c rest ih =>
    intro cs r h
    simp only [findCloseI] at h
    split at h
    · exact absurd h (by simp)
    · split at h
      · simp only [Option.some.injEq, Prod.mk.injEq] at h
        obtain ⟨h1, h2⟩ := h
        subst h1; subst h2; simp
      · split at h
        · rename_i cs' r' hfc
          simp only [Option.some.injEq, Prod.mk.injEq] at h
          obtain ⟨h1, h2⟩ := h
          have := ih hfc
          subst h1; subst h2
          simp at this ⊢
          omega
        · exact absurd h (by simp)

/-- Embedding of `re.sub(r'\*(.*?)\*', r'<i>\1</i>', text)`. -/
def subItal : List Char → List Char
  | [] => []
  | c :: rest =>
    if c = '*' then
      match hfc : findCloseI rest with
      | some (content, rest2) => tagI content ++ subItal rest2
      | none => c :: subItal rest
    else c :: subItal rest
termination_by l => l.length
decreasing_by
  · have := findCloseI_size hfc
    simp at this ⊢
    omega
  · simp
  · simp

/-- Embedding of `_md_to_html_tags`: the bold substitution applied first,
then the italic substitution on its output. -/
def md_to_html_tags (s : String) : String :=
  (subItal (subBold s.toList)).asString

end PdfMaker

/-! ## Embedding of src/views/longread_tab.py -/

namespace LongreadTab

/-- The backquote character, written by code point. -/
def backquote : Char := Char.ofNat 96

/-- Embedding of the escaping step of `create_html_export`:
`markdown_text.replace(backquote, backslash+backquote).replace("$", "\\$")` —
two sequential single-character replacements, neither pass re-examining the
text it has just inserted. -/
def safe_md (l : List Char) : List Char :=
  let step1 := l.flatMap (fun c => if c = backquote then ['\\', backquote] else [c])
  step1.flatMap (fun c => if c = '$' then ['\\', '$'] else [c])

/-- What the two replacement passes of `safe_md` jointly emit for one input
character (the second pass never re-examines the backslashes inserted by the
first). -/
def escPair (c : Char) : List Char :=
  if c = backquote then ['\\', backquote]
  else if c = '$' then ['\\', '$']
  else [c]

/-- JavaScript template-literal escape sequences: what `backslash + c` denotes
inside an untagged template literal (`none` for the escapes that are syntax
errors there: `\x`, `\u`, `\8`, `\9`). -/
def jsEscChar (c : Char) : Option Char :=
  if c = backquote then some backquote
  else if c = '$' then some '$'
  else if c = '\\' then some '\\'
  else if c = 'n' then some (Char.ofNat 10)
  else if c = 't' then some (Char.ofNat 9)
  else if c = 'r' then some (Char.ofNat 13)
  else if c = 'b' then some (Char.ofNat 8)
  else if c = 'f' then some (Char.ofNat 12)
  else if c = 'v' then some (Char.ofNat 11)
  else if c = 'x' ∨ c = 'u' ∨ c = '8' ∨ c = '9' then none
  else some c

/-- Reading the embedded text back as the body of a JavaScript template
literal, per the template-literal grammar: a backslash starts an escape
sequence; an unescaped backquote terminates the literal early (failure, since
the page embeds the whole body); `$` followed by a left brace starts an
interpolation (failure); every other character denotes itself.  Returns the
string value the literal evaluates to, or `none` when the embedding is
broken. -/
def jsTemplateEval : List Char → Option (List Char)
  | [] => some []
  | c :: rest =>
    if c = '\\' then
      match rest with
      | [] => none
      | d :: rest2 =>
        match jsEscChar d with
        | some e => (jsTemplateEval rest2).map (fun t => e :: t)
        | none => none
    else if c = backquote then none
    else if c = '$' then
      match rest with
      | d :: _ =>
        if d = ContentGen.lbrace then none
        else (jsTemplateEval rest).map (fun t => c :: t)
      | [] => some [c]
    else (jsTemplateEval rest).map (fun t => c :: t)

end LongreadTab

/-! ## Theorems -/

namespace ContentGen

theorem dropWhile_append_of_forall {p : Char → Bool} :
    ∀ (xs ys : List Char), (∀ c ∈ xs, p c = true) →
      (xs ++ ys).dropWhile p = ys.dropWhile p := by
  intro xs ys h
  induction xs with
  | nil => rfl
  | cons a as ih =>
    have ha : p a = true := h a (List.mem_cons_self a as)
    simp [List.dropWhile, ha]
    exact ih (fun c hc => h c (List.mem_cons_of_mem a hc))

theorem uptoLastClose_of_no_close {l : List Char} (h : ']' ∉ l) :
    uptoLastClose l = none := by
  unfold uptoLastClose
  have hall : ∀ c ∈ l.reverse, ((fun c => c != ']') c) = true := by
    intro c hc
    have : c ∈ l := List.mem_reverse.mp hc
    simp only [bne_iff_ne, ne_eq]
    intro hceq; exact h (hceq ▸ this)
  have hdrop : l.reverse.dropWhile (fun c => c != ']') = [] := by
    have := dropWhile_append_of_forall (p := fun c => c != ']') l.reverse [] hall
    simpa using this
  simp [hdrop]

theorem uptoLastClose_decomp (m b : List Char) (hb : ']' ∉ b) :
    uptoLastClose (m ++ ']' :: b) = some (m ++ [']']) := by
  unfold uptoLastClose
  have hall : ∀ c ∈ b.reverse, ((fun c => c != ']') c) = true := by
    intro c hc
    have : c ∈ b := List.mem_reverse.mp hc
    simp only [bne_iff_ne, ne_eq]
    intro hceq; exact hb (hceq ▸ this)
  have hrev : (m ++ ']' :: b).reverse = b.reverse ++ ']' :: m.reverse := by
    simp
  rw [hrev, dropWhile_append_of_forall b.reverse (']' :: m.reverse) hall]
  simp [List.dropWhile]

theorem extractCore_append_of_no_open {a : List Char} (ha : '[' ∉ a)
    (s : List Char) : extractCore (a ++ s) = extractCore s := by
  induction a with
  | nil => rfl
  | cons c cs ih =>
    have hc : c ≠ '[' := fun hceq => ha (hceq ▸ List.mem_cons_self c cs)
    have hcs : '[' ∉ cs := fun hm => ha (List.mem_cons_of_mem c hm)
    simp only [List.cons_append, extractCore, if_neg hc]
    exact ih hcs

theorem extractCore_of_no_pair {l : List Char} (h : hasBracketPair l = false) :
    extractCore l = none := by
  induction l with
  | nil => rfl
  | cons c rest ih =>
    simp only [hasBracketPair, Bool.or_eq_false_iff, Bool.and_eq_false_iff] at h
    obtain ⟨h1, h2⟩ := h
    by_cases hc : c = '['
    · have hnoclose : ']' ∉ rest := by
        rcases h1 with h1 | h1
        · simp [hc] at h1
        · simpa using h1
      simp only [extractCore, if_pos hc, uptoLastClose_of_no_close hnoclose]
      exact ih h2
    · simp only [extractCore, if_neg hc]
      exact ih h2

/-- C2: `_extract_json_from_text` returns the substring spanning the first
`[` to the last `]` (greedy, spanning embedded newlines) whenever the text
contains a `[` followed later by a `]` (first conjunct: `a` holds no earlier
`[`, `b` holds no later `]`); on a text with no such bracket pair it returns
the input unchanged (second conjunct).  The extractor is a total function, so
it never raises. -/
theorem extract_json_from_text_spec :
    (∀ a m b : List Char, '[' ∉ a → ']' ∉ b →
       extract_json_from_text (a ++ '[' :: (m ++ ']' :: b)) = '[' :: (m ++ [']'])) ∧
    (∀ l : List Char, hasBracketPair l = false → extract_json_from_text l = l) := by
  constructor
  · intro a m b ha hb
    unfold extract_json_from_text
    rw [extractCore_append_of_no_open ha]
    simp only [extractCore, if_pos rfl, uptoLastClose_decomp m b hb]
    rfl
  · intro l h
    unfold extract_json_from_text
    rw [extractCore_of_no_pair h]
    rfl

/-- Witness for C2 at a concrete input: prose around the array, and a text
without a bracket pair. -/
theorem extract_json_from_text_spec_witness :
    extract_json_from_text (['x', ' '] ++ '[' :: (['1', ',', '\n', '2'] ++ ']' :: [' ', 'y'])) =
      '[' :: (['1', ',', '\n', '2'] ++ [']']) ∧
    extract_json_from_text ['n', 'o', ']', ' ', '['] = ['n', 'o', ']', ' ', '['] :=
  ⟨extract_json_from_text_spec.1 ['x', ' '] ['1', ',', '\n', '2'] [' ', 'y']
      (by decide) (by decide),
   extract_json_from_text_spec.2 ['n', 'o', ']', ' ', '['] (by decide)⟩

end ContentGen

namespace LlmClient

/-- C1: `generate_sync(p, t)` is exactly the concatenation, in arrival order,
of all fragments yielded by `generate_stream(p, t)` over the same
deterministic transport and configuration — there is no separate synchronous
code path (first conjunct: sync is the joined stream, errors included), so
when the stream yields `frags` the synchronous result is their in-order
concatenation (second conjunct). -/
theorem generate_sync_drains_stream :
    (∀ (tr : Transport) (st : SessionState) (secrets : Secrets) (env : EnvVars)
       (prompt : String) (temperature : Option ℚ),
       generate_sync tr st secrets env prompt temperature =
         (generate_stream tr st secrets env prompt temperature).map String.join) ∧
    (∀ (tr : Transport) (st : SessionState) (secrets : Secrets) (env : EnvVars)
       (prompt : String) (temperature : Option ℚ) (frags : List String),
       generate_stream tr st secrets env prompt temperature = .ok frags →
       generate_sync tr st secrets env prompt temperature = .ok (String.join frags)) := by
  constructor
  · intro tr st secrets env prompt temperature
    rfl
  · intro tr st secrets env prompt temperature frags h
    unfold generate_sync
    rw [h]
    rfl

/-- Witness for C1: a concrete three-chunk transport (with an empty delta and
a choiceless chunk skipped) drained into one string. -/
theorem generate_sync_drains_stream_witness :
    generate_stream
        (fun _ => .ok [⟨[⟨some "Hello"⟩]⟩, ⟨[]⟩, ⟨[⟨some ""⟩]⟩, ⟨[⟨some ", world"⟩]⟩])
        ⟨none, none⟩ ⟨some "key", none, none⟩ ⟨none, none, none⟩ "p" none =
      .ok ["Hello", ", world"] ∧
    generate_sync
        (fun _ => .ok [⟨[⟨some "Hello"⟩]⟩, ⟨[]⟩, ⟨[⟨some ""⟩]⟩, ⟨[⟨some ", world"⟩]⟩])
        ⟨none, none⟩ ⟨some "key", none, none⟩ ⟨none, none, none⟩ "p" none =
      .ok (String.join ["Hello", ", world"]) :=
  ⟨rfl,
   generate_sync_drains_stream.2
     (fun _ => .ok [⟨[⟨some "Hello"⟩]⟩, ⟨[]⟩, ⟨[⟨some ""⟩]⟩, ⟨[⟨some ", world"⟩]⟩])
     ⟨none, none⟩ ⟨some "key", none, none⟩ ⟨none, none, none⟩ "p" none
     ["Hello", ", world"] rfl⟩

end LlmClient

namespace LlmClient

/-- C4 counterexample: with no session override, a stored secret naming
`GigaChat-Pro` and no environment variable, the chat request actually sent
(observed through a transport that reports the request's model field) carries
the hardcoded default `GigaChat-2-Max`, not the layered resolution
`GigaChat-Pro` — so the layered-priority model name is not the one carried by
the chat request. -/
theorem generate_stream_model_counterexample :
    generate_stream (fun req => .error req.model) ⟨none, none⟩
        ⟨some "key", none, some "GigaChat-Pro"⟩ ⟨none, none, none⟩ "p" none =
      .error (.runtimeError "Ошибка GigaChat API: GigaChat-2-Max") ∧
    specLayeredModel ⟨none, none⟩ ⟨some "key", none, some "GigaChat-Pro"⟩
        ⟨none, none, none⟩ = "GigaChat-Pro" := by
  constructor
  · rfl
  · rfl

/-- C4 (amended): the chat request built by `generate_stream` carries
`st.session_state.get("llm_model", "GigaChat-2-Max")` — session override or
hardcoded default, skipping secrets and environment — resolved at call time;
the full layered priority (session → secret → environment → default) is
applied only to the model field of the client configuration built by
`_get_gigachat_client`. -/
theorem generate_stream_model_resolution :
    ∀ (st : SessionState) (secrets : Secrets) (env : EnvVars)
      (p : String) (t : Option ℚ),
      (buildChatRequest st p t).model = st.llmModel.getD "GigaChat-2-Max" ∧
      (∀ cfg, get_gigachat_client st secrets env = .ok cfg →
        cfg.model = clientModelName st secrets env) ∧
      (secrets.model ≠ some "" →
        clientModelName st secrets env = specLayeredModel st secrets env) := by
  intro st secrets env p t
  refine ⟨rfl, ?_, ?_⟩
  · intro cfg h
    unfold get_gigachat_client at h
    split at h
    · exact absurd h (by simp)
    · split at h
      · exact absurd h (by simp)
      · simp only [Except.ok.injEq] at h
        rw [← h]
  · intro hne
    unfold clientModelName specLayeredModel pyOrStr
    cases st.llmModel with
    | some m => rfl
    | none =>
      cases hsm : secrets.model with
      | none => rfl
      | some s =>
        have hs : s ≠ "" := by
          intro hcontra
          exact hne (by rw [hsm, hcontra])
        simp [hs]

/-- Witness for C4 (amended) at the counterexample's configuration. -/
theorem generate_stream_model_resolution_witness :
    (buildChatRequest ⟨none, none⟩ "p" none).model = "GigaChat-2-Max" ∧
    (ClientConfig.mk "key" "GIGACHAT_API_PERS" "GigaChat-Pro").model =
      clientModelName ⟨none, none⟩ ⟨some "key", none, some "GigaChat-Pro"⟩
        ⟨none, none, none⟩ ∧
    clientModelName ⟨none, none⟩ ⟨some "key", none, some "GigaChat-Pro"⟩
        ⟨none, none, none⟩ =
      specLayeredModel ⟨none, none⟩ ⟨some "key", none, some "GigaChat-Pro"⟩
        ⟨none, none, none⟩ := by
  have h := generate_stream_model_resolution ⟨none, none⟩
    ⟨some "key", none, some "GigaChat-Pro"⟩ ⟨none, none, none⟩ "p" none
  exact ⟨h.1, h.2.1 (ClientConfig.mk "key" "GIGACHAT_API_PERS" "GigaChat-Pro") rfl,
    h.2.2 (by decide)⟩

/-- C6 counterexample: with no credential anywhere, `generate_stream` fails
with `RuntimeError("Ошибка GigaChat API: ...")` — the very same
transport-error wrapping that a genuine transport failure receives (second
conjunct, same configuration plus a credential) — so the credentials-missing
failure does not reach the caller as its own error kind distinct from the
transport wrapping. -/
theorem credentials_error_not_distinct_counterexample :
    generate_stream (fun _ => .error "network down") ⟨none, none⟩
        ⟨none, none, none⟩ ⟨none, none, none⟩ "p" none =
      .error (.runtimeError ("Ошибка GigaChat API: " ++ "Не настроены ключи доступа GigaChat.")) ∧
    generate_stream (fun _ => .error "network down") ⟨none, none⟩
        ⟨some "key", none, none⟩ ⟨none, none, none⟩ "p" none =
      .error (.runtimeError ("Ошибка GigaChat API: " ++ "network down")) := by
  constructor
  · rfl
  · rfl

/-- C6 (amended): when no usable credential resolves (absent everywhere, or
resolved to the falsy empty string), the generation call fails before any
network call (the transport is never invoked: second component `false`) — but
the `ValueError` raised inside the `try` block is caught by the blanket
`except` and re-raised as the same `RuntimeError` transport wrapping, so the
caller does not see a distinct credentials error kind. -/
theorem credentials_missing_before_network :
    ∀ (tr : Transport) (st : SessionState) (secrets : Secrets) (env : EnvVars)
      (prompt : String) (t : Option ℚ),
      (pyOrStrOpt secrets.credentials env.credentials = none ∨
        pyOrStrOpt secrets.credentials env.credentials = some "") →
      generateStreamAux tr st secrets env prompt t =
        (.error (.runtimeError ("Ошибка GigaChat API: " ++ "Не настроены ключи доступа GigaChat.")), false) := by
  intro tr st secrets env prompt t h
  unfold generateStreamAux get_gigachat_client
  rcases h with h | h
  · rw [h]
    rfl
  · rw [h]
    rfl

/-- Witness for C6 (amended): unset credentials everywhere. -/
theorem credentials_missing_before_network_witness :
    generateStreamAux (fun _ => .error "network down") ⟨none, none⟩
        ⟨none, none, none⟩ ⟨none, none, none⟩ "p" none =
      (.error (.runtimeError ("Ошибка GigaChat API: " ++ "Не настроены ключи доступа GigaChat.")), false) :=
  credentials_missing_before_network (fun _ => .error "network down")
    ⟨none, none⟩ ⟨none, none, none⟩ ⟨none, none, none⟩ "p" none (Or.inl rfl)

end LlmClient

namespace ContentGen

open LlmClient

/-- C5 counterexample: the broadcast and lead-magnet streams pass the model
one and the same temperature, 0.7 — the three streaming content kinds do not
use pairwise distinct temperature settings. -/
theorem stream_temperatures_counterexample :
    BROADCAST_TEMPERATURE = LEAD_MAGNET_TEMPERATURE ∧
    BROADCAST_TEMPERATURE = 7/10 := by
  constructor <;> rfl

/-- C5 (amended): the three streaming content kinds build their prompts from
three pairwise distinct template files; the broadcast and lead-magnet streams
share temperature 0.7 while the SEO-article stream uses a strictly higher
0.8, and each generator delegates to `generate_stream` with its template and
its temperature constant. -/
theorem stream_kind_templates_and_temperatures :
    (BROADCAST_TEMPLATE ≠ LEAD_MAGNET_TEMPLATE ∧
      BROADCAST_TEMPLATE ≠ SEO_ARTICLE_TEMPLATE ∧
      LEAD_MAGNET_TEMPLATE ≠ SEO_ARTICLE_TEMPLATE) ∧
    (BROADCAST_TEMPERATURE = 7/10 ∧ LEAD_MAGNET_TEMPERATURE = 7/10 ∧
      SEO_ARTICLE_TEMPERATURE = 4/5 ∧
      BROADCAST_TEMPERATURE < SEO_ARTICLE_TEMPERATURE ∧
      LEAD_MAGNET_TEMPERATURE < SEO_ARTICLE_TEMPERATURE) ∧
    (∀ (fs : FS) (tr : Transport) (st : SessionState) (secrets : Secrets)
       (env : EnvVars) (c b t o k tpl : String), fs BROADCAST_TEMPLATE = some tpl →
       generate_broadcast_stream fs tr st secrets env c b t o k =
         generate_stream tr st secrets env
           (pyFormat tpl [("channel", c), ("business_niche", b), ("topic", t),
             ("tone", o), ("brand_keywords", k)])
           (some BROADCAST_TEMPERATURE)) ∧
    (∀ (fs : FS) (tr : Transport) (st : SessionState) (secrets : Secrets)
       (env : EnvVars) (a t u l b tpl : String), fs LEAD_MAGNET_TEMPLATE = some tpl →
       generate_lead_magnet_stream fs tr st secrets env a t u l b =
         generate_stream tr st secrets env
           (pyFormat tpl [("lm_type", a), ("topic", t), ("audience", u),
             ("length", l), ("business_niche", b)])
           (some LEAD_MAGNET_TEMPERATURE)) ∧
    (∀ (fs : FS) (tr : Transport) (st : SessionState) (secrets : Secrets)
       (env : EnvVars) (b t k l tpl : String), fs SEO_ARTICLE_TEMPLATE = some tpl →
       generate_seo_article_stream fs tr st secrets env b t k l =
         generate_stream tr st secrets env
           (pyFormat tpl [("business_niche", b), ("topic", t),
             ("target_keywords", k), ("length", l)])
           (some SEO_ARTICLE_TEMPERATURE)) := by
  refine ⟨⟨by decide, by decide, by decide⟩,
    ⟨rfl, rfl, rfl,
      by unfold BROADCAST_TEMPERATURE SEO_ARTICLE_TEMPERATURE; norm_num,
      by unfold LEAD_MAGNET_TEMPERATURE SEO_ARTICLE_TEMPERATURE; norm_num⟩, ?_, ?_, ?_⟩
  · intro fs tr st secrets env c b t o k tpl h
    unfold generate_broadcast_stream load_prompt
    rw [h]
  · intro fs tr st secrets env a t u l b tpl h
    unfold generate_lead_magnet_stream load_prompt
    rw [h]
  · intro fs tr st secrets env b t k l tpl h
    unfold generate_seo_article_stream load_prompt
    rw [h]

/-- Witness for C5 (amended): a one-template file system and an empty-stream
transport. -/
theorem stream_kind_templates_and_temperatures_witness :
    generate_broadcast_stream (fun _ => some "T") (fun _ => .ok []) ⟨none, none⟩
        ⟨some "key", none, none⟩ ⟨none, none, none⟩ "a" "b" "c" "d" "e" =
      generate_stream (fun _ => .ok []) ⟨none, none⟩ ⟨some "key", none, none⟩
        ⟨none, none, none⟩
        (pyFormat "T" [("channel", "a"), ("business_niche", "b"), ("topic", "c"),
          ("tone", "d"), ("brand_keywords", "e")])
        (some BROADCAST_TEMPERATURE) ∧
    generate_lead_magnet_stream (fun _ => some "T") (fun _ => .ok []) ⟨none, none⟩
        ⟨some "key", none, none⟩ ⟨none, none, none⟩ "a" "b" "c" "d" "e" =
      generate_stream (fun _ => .ok []) ⟨none, none⟩ ⟨some "key", none, none⟩
        ⟨none, none, none⟩
        (pyFormat "T" [("lm_type", "a"), ("topic", "b"), ("audience", "c"),
          ("length", "d"), ("business_niche", "e")])
        (some LEAD_MAGNET_TEMPERATURE) ∧
    generate_seo_article_stream (fun _ => some "T") (fun _ => .ok []) ⟨none, none⟩
        ⟨some "key", none, none⟩ ⟨none, none, none⟩ "a" "b" "c" "d" =
      generate_stream (fun _ => .ok []) ⟨none, none⟩ ⟨some "key", none, none⟩
        ⟨none, none, none⟩
        (pyFormat "T" [("business_niche", "a"), ("topic", "b"),
          ("target_keywords", "c"), ("length", "d")])
        (some SEO_ARTICLE_TEMPERATURE) :=
  ⟨stream_kind_templates_and_temperatures.2.2.1 (fun _ => some "T") (fun _ => .ok [])
      ⟨none, none⟩ ⟨some "key", none, none⟩ ⟨none, none, none⟩ "a" "b" "c" "d" "e" "T" rfl,
   stream_kind_templates_and_temperatures.2.2.2.1 (fun _ => some "T") (fun _ => .ok [])
      ⟨none, none⟩ ⟨some "key", none, none⟩ ⟨none, none, none⟩ "a" "b" "c" "d" "e" "T" rfl,
   stream_kind_templates_and_temperatures.2.2.2.2 (fun _ => some "T") (fun _ => .ok [])
      ⟨none, none⟩ ⟨some "key", none, none⟩ ⟨none, none, none⟩ "a" "b" "c" "d" "T" rfl⟩

end ContentGen

namespace ContentGen

theorem mapM_option_length_get {α β : Type} (f : α → Option β) :
    ∀ (xs : List α) (vs : List β), xs.mapM f = some vs →
      vs.length = xs.length ∧ ∀ i : ℕ, vs[i]? = xs[i]?.bind f := by
  intro xs
  induction xs with
  | nil =>
    intro vs h
    simp only [List.mapM_nil, pure, Option.some.injEq] at h
    subst h
    exact ⟨rfl, fun i => by simp⟩
  | cons x xs ih =>
    intro vs h
    rw [List.mapM_cons] at h
    cases hfx : f x with
    | none => rw [hfx] at h; simp at h
    | some v =>
      rw [hfx] at h
      cases hxs : xs.mapM f with
      | none => rw [hxs] at h; simp at h
      | some ws =>
        rw [hxs] at h
        simp only [Option.bind_eq_bind, Option.some_bind, pure, Option.some.injEq] at h
        subst h
        obtain ⟨hlen, hget⟩ := ih ws hxs
        refine ⟨by simp [hlen], ?_⟩
        intro i
        cases i with
        | zero => simp [hfx]
        | succ n => simp [hget n]

/-- C3: whenever the extracted bracket span of the raw model response parses
as a JSON array of N objects that all validate as content-plan items,
`generate_content_plan` returns exactly those N validated items, in the order
they appear in the array (conjuncts 1-3), and the bare top-level array is
normalized into the expected root-object shape before validation
(conjunct 4). -/
theorem generate_content_plan_spec :
    ∀ (parse : String → Option Json) (raw : String) (xs : List Json)
      (vs : List ContentPlanItem),
      parse ((extract_json_from_text raw.toList).asString) = some (Json.arr xs) →
      xs.mapM validateItem = some vs →
      generate_content_plan_from_response parse raw = .ok vs ∧
      vs.length = xs.length ∧
      (∀ i : ℕ, vs[i]? = xs[i]?.bind validateItem) ∧
      planFromParsed (Json.arr xs) =
        validatePlanItems (Json.obj [("items", Json.arr xs)]) := by
  intro parse raw xs vs hparse hval
  have hplan : planFromParsed (Json.arr xs) = some vs := by
    rw [show planFromParsed (Json.arr xs) = xs.mapM validateItem from rfl, hval]
  obtain ⟨hlen, hget⟩ := mapM_option_length_get validateItem xs vs hval
  refine ⟨?_, hlen, hget, rfl⟩
  unfold generate_content_plan_from_response
  rw [hparse]
  simp only
  rw [hplan]

end ContentGen

/-- Witness for C3: a one-item plan array, parsed and validated. -/
theorem generate_content_plan_spec_witness :
    ContentGen.generate_content_plan_from_response
        (fun _ => some (ContentGen.Json.arr [ContentGen.Json.obj
          [("date", ContentGen.Json.str "W1"), ("channel", ContentGen.Json.str "tg"),
           ("format", ContentGen.Json.str "post"), ("topic", ContentGen.Json.str "A"),
           ("description", ContentGen.Json.str "d")]]))
        "plan" =
      .ok [⟨"W1", "tg", "post", "A", "d"⟩] :=
  (ContentGen.generate_content_plan_spec
    (fun _ => some (ContentGen.Json.arr [ContentGen.Json.obj
      [("date", ContentGen.Json.str "W1"), ("channel", ContentGen.Json.str "tg"),
       ("format", ContentGen.Json.str "post"), ("topic", ContentGen.Json.str "A"),
       ("description", ContentGen.Json.str "d")]]))
    "plan"
    [ContentGen.Json.obj
      [("date", ContentGen.Json.str "W1"), ("channel", ContentGen.Json.str "tg"),
       ("format", ContentGen.Json.str "post"), ("topic", ContentGen.Json.str "A"),
       ("description", ContentGen.Json.str "d")]]
    [⟨"W1", "tg", "post", "A", "d"⟩] rfl rfl).1

namespace PdfMaker

theorem subBold_cons_no_star {c : Char} (hc : c ≠ '*') (l : List Char) :
    subBold (c :: l) = c :: subBold l := by
  rw [subBold.eq_def]
  simp [hc]

theorem subBold_nil : subBold [] = [] := by
  rw [subBold.eq_def]

theorem subBold_open {rest2 t b : List Char}
    (hfc : findCloseB rest2 = some (t, b)) :
    subBold ('*' :: '*' :: rest2) = tagB t ++ subBold b := by
  rw [subBold.eq_def]
  simp only [List.tail_cons]
  rw [if_pos (by simp [isStarHead])]
  split
  · rename_i content rest3 heq
    rw [hfc] at heq
    injection heq with heq
    injection heq with h1 h2
    rw [h1, h2]
  · rename_i heq
    rw [hfc] at heq
    exact absurd heq (by simp)

theorem findCloseB_clean (b : List Char) :
    ∀ t : List Char, '*' ∉ t → '\n' ∉ t →
      findCloseB (t ++ '*' :: '*' :: b) = some (t, b) := by
  intro t
  induction t with
  | nil =>
    intro _ _
    simp [findCloseB, isStarHead]
  | cons c t' ih =>
    intro hstar hnl
    have hc : c ≠ '*' := fun h => hstar (h ▸ List.mem_cons_self c t')
    have hn : c ≠ '\n' := fun h => hnl (h ▸ List.mem_cons_self c t')
    have ih' := ih (fun hm => hstar (List.mem_cons_of_mem c hm))
      (fun hm => hnl (List.mem_cons_of_mem c hm))
    simp [findCloseB, hn, hc, ih']

theorem subBold_append_no_star {a : List Char} (ha : '*' ∉ a) (s : List Char) :
    subBold (a ++ s) = a ++ subBold s := by
  induction a with
  | nil => simp
  | cons c a' ih =>
    have hc : c ≠ '*' := fun h => ha (h ▸ List.mem_cons_self c a')
    have ha' : '*' ∉ a' := fun hm => ha (List.mem_cons_of_mem c hm)
    rw [List.cons_append, subBold_cons_no_star hc, ih ha', List.cons_append]

theorem subBold_id_no_star {a : List Char} (ha : '*' ∉ a) : subBold a = a := by
  have h := subBold_append_no_star ha []
  simpa [subBold_nil] using h

theorem subItal_cons_no_star {c : Char} (hc : c ≠ '*') (l : List Char) :
    subItal (c :: l) = c :: subItal l := by
  rw [subItal.eq_def]
  simp [hc]

theorem subItal_id_no_star {a : List Char} (ha : '*' ∉ a) : subItal a = a := by
  induction a with
  | nil => rw [subItal.eq_def]
  | cons c a' ih =>
    have hc : c ≠ '*' := fun h => ha (h ▸ List.mem_cons_self c a')
    have ha' : '*' ∉ a' := fun hm => ha (List.mem_cons_of_mem c hm)
    rw [subItal_cons_no_star hc, ih ha']

theorem star_not_mem_tagB {t : List Char} (ht : '*' ∉ t) : '*' ∉ tagB t := by
  intro hm
  rcases List.mem_cons.mp hm with h | hm
  · exact absurd h (by decide)
  rcases List.mem_cons.mp hm with h | hm
  · exact absurd h (by decide)
  rcases List.mem_cons.mp hm with h | hm
  · exact absurd h (by decide)
  rcases List.mem_append.mp hm with h | h
  · exact ht h
  · exact absurd h (by decide)

/-- C7: `_md_to_html_tags` maps `**bold** and *italic*` to
`<b>bold</b> and <i>italic</i>` (first conjunct); in general the bold
substitution runs before the italic one, so a `**text**` span (no inner
marker, no newline, no other marker around it) is converted whole to
`<b>text</b>` and the italic rule never partially matches it (second
conjunct: the italic pass leaves the bold conversion untouched). -/
theorem md_to_html_tags_spec :
    md_to_html_tags "**bold** and *italic*" = "<b>bold</b> and <i>italic</i>" ∧
    (∀ a t b : List Char, '*' ∉ a → '*' ∉ t → '*' ∉ b → '\n' ∉ t →
      subItal (subBold (a ++ '*' :: '*' :: (t ++ '*' :: '*' :: b))) =
        a ++ tagB t ++ b) := by
  constructor
  · unfold md_to_html_tags
    have h0 : "**bold** and *italic*".toList =
      ['*', '*', 'b', 'o', 'l', 'd', '*', '*', ' ', 'a', 'n', 'd', ' ',
       '*', 'i', 't', 'a', 'l', 'i', 'c', '*'] := rfl
    rw [h0]
    simp [subBold, subItal, findCloseB, findCloseI, isStarHead, tagB, tagI]
    rfl
  · intro a t b ha ht hb htn
    rw [subBold_append_no_star ha, subBold_open (findCloseB_clean b t ht htn),
      subBold_id_no_star hb]
    have hnostar : '*' ∉ a ++ (tagB t ++ b) := by
      intro hm
      rcases List.mem_append.mp hm with hm | hm
      · exact ha hm
      · rcases List.mem_append.mp hm with hm | hm
        · exact star_not_mem_tagB ht hm
        · exact hb hm
    rw [subItal_id_no_star hnostar, List.append_assoc]

/-- Witness for C7's general conjunct at a concrete bold span with
surrounding text. -/
theorem md_to_html_tags_spec_witness :
    subItal (subBold (['x', ' '] ++ '*' :: '*' :: (['h', 'i'] ++ '*' :: '*' :: [' ', 'z']))) =
      ['x', ' '] ++ tagB ['h', 'i'] ++ [' ', 'z'] :=
  md_to_html_tags_spec.2 ['x', ' '] ['h', 'i'] [' ', 'z']
    (by decide) (by decide) (by decide) (by decide)

/-- C8: `_setup_fonts` (run in a fresh process, registration flag unset)
succeeds exactly when the regular-weight font file exists (first conjunct);
a missing regular file raises the `FileNotFoundError` font-asset error
(second conjunct); when the regular file exists but the bold file is absent
it succeeds and maps every style variant — bold, italic, bold-italic — to the
regular weight (third conjunct), and `generate_pdf` then styles bold text
with the regular face (fourth conjunct), so rendering bold-styled text
succeeds without error. -/
theorem setup_fonts_spec :
    (∀ regularExists boldExists : Bool,
      (setup_fonts false regularExists boldExists).isOk = regularExists) ∧
    (∀ boldExists : Bool,
      setup_fonts false false boldExists =
        .error (.fileNotFound "Не найден базовый шрифт Roboto-Regular.ttf. Добавьте его в папку assets/fonts/.")) ∧
    setup_fonts false true false =
      .ok (some { regular := REGULAR_FONT_NAME, bold := REGULAR_FONT_NAME
                  italic := REGULAR_FONT_NAME, boldItalic := REGULAR_FONT_NAME }) ∧
    boldStyleFontName false = REGULAR_FONT_NAME := by
  refine ⟨?_, ?_, rfl, rfl⟩
  · intro r bo
    cases r <;> cases bo <;> rfl
  · intro bo
    cases bo <;> rfl

end PdfMaker

namespace LongreadTab

theorem safe_md_cons (c : Char) (l : List Char) :
    safe_md (c :: l) = escPair c ++ safe_md l := by
  unfold safe_md
  rw [List.flatMap_cons, List.flatMap_append]
  congr 1
  · by_cases hb : c = backquote
    · subst hb; rfl
    · by_cases hd : c = '$'
      · subst hd; rfl
      · simp [escPair, hb, hd]

/-- C9 counterexample: `create_html_export` escapes only backticks and dollar
signs; a backslash passes through unescaped, so the two-character markdown
text backslash-`n` is embedded verbatim and read back by the template-literal
grammar as a single newline — the embedded literal does not evaluate to the
original text. -/
theorem safe_md_roundtrip_counterexample :
    safe_md ['\\', 'n'] = ['\\', 'n'] ∧
    jsTemplateEval (safe_md ['\\', 'n']) = some [Char.ofNat 10] ∧
    jsTemplateEval (safe_md ['\\', 'n']) ≠ some ['\\', 'n'] := by
  refine ⟨rfl, rfl, ?_⟩
  decide

/-- C9 (amended): the escaping handles backticks and dollar signs only; for
every markdown text containing no backslash, the embedded template literal is
well-formed and evaluates back to the original text.  Inputs containing
backslashes are not protected (see the counterexample). -/
theorem safe_md_roundtrip_no_backslash :
    ∀ l : List Char, '\\' ∉ l → jsTemplateEval (safe_md l) = some l := by
  intro l
  induction l with
  | nil => intro _; rfl
  | cons c l' ih =>
    intro h
    have hc : c ≠ '\\' := fun hh => h (hh ▸ List.mem_cons_self c l')
    have hl' : '\\' ∉ l' := fun hm => h (List.mem_cons_of_mem c hm)
    rw [safe_md_cons]
    by_cases hb : c = backquote
    · subst hb
      rw [show escPair backquote = ['\\', backquote] from rfl]
      simp [jsTemplateEval, jsEscChar, ih hl']
    · by_cases hd : c = '$'
      · subst hd
        rw [show escPair '$' = ['\\', '$'] from by simp [escPair, show ('$' : Char) ≠ backquote from by decide]]
        simp [jsTemplateEval, jsEscChar, ih hl',
          show ('$' : Char) ≠ backquote from by decide]
      · rw [show escPair c = [c] from by simp [escPair, hb, hd],
          List.singleton_append, jsTemplateEval.eq_def]
        simp [hc, hb, hd, ih hl']

/-- Witness for C9 (amended): a backslash-free text with a backtick and a
dollar sign round-trips. -/
theorem safe_md_roundtrip_no_backslash_witness :
    jsTemplateEval (safe_md ['h', 'i', backquote, '$']) =
      some ['h', 'i', backquote, '$'] :=
  safe_md_roundtrip_no_backslash ['h', 'i', backquote, '$'] (by decide)

end LongreadTab

namespace LlmClient

/-- C10 (implicit): an explicitly passed temperature `0.0` is falsy under the
Python `or` used by `generate_stream`/`generate_sync`, so it is ignored and
the effective temperature falls back to the session setting, or to the
default 0.7 (conjuncts 1, 2 and 4 — conjunct 4 for the request actually
built); an explicit temperature takes effect exactly when non-zero
(conjunct 3). -/
theorem effTemperature_zero_falls_back :
    ∀ (st : SessionState) (p : String),
      effTemperature (some 0) st = st.llmTemperature.getD DEFAULT_TEMPERATURE ∧
      effTemperature none st = st.llmTemperature.getD DEFAULT_TEMPERATURE ∧
      (∀ t : ℚ, t ≠ 0 → effTemperature (some t) st = t) ∧
      (buildChatRequest st p (some 0)).temperature =
        st.llmTemperature.getD DEFAULT_TEMPERATURE ∧
      DEFAULT_TEMPERATURE = 7/10 := by
  intro st p
  refine ⟨?_, rfl, ?_, ?_, rfl⟩
  · simp [effTemperature]
  · intro t ht
    simp [effTemperature, ht]
  · simp [buildChatRequest, effTemperature]

/-- Witness for C10: with a session temperature of 0.5, an explicit 0 is
ignored in favour of 0.5 while an explicit 0.9 takes effect. -/
theorem effTemperature_zero_falls_back_witness :
    effTemperature (some 0) ⟨none, some (1/2)⟩ = 1/2 ∧
    effTemperature (some (9/10)) ⟨none, some (1/2)⟩ = 9/10 :=
  ⟨(effTemperature_zero_falls_back ⟨none, some (1/2)⟩ "p").1,
   (effTemperature_zero_falls_back ⟨none, some (1/2)⟩ "p").2.2.1 (9/10) (by norm_num)⟩

end LlmClient
